import Mathlib

/-!
Verification of the product-search planner
(`product_search/products/views.py`, class `ProductViewSet`).

The planner is embedded shallowly:

* the catalog (`Product.objects`) is a list of `Product` records in storage
  order; Django queryset `filter` is `List.filter`, `order_by` on a numeric
  annotation is a stable sort on that key, slicing `[:20]` is `List.take 20`;
* the external collaborators are parameters: `rk` models PostgreSQL
  `SearchRank` (a rank for a stored search vector against a tsquery) and
  `sim` models `TrigramSimilarity` (a similarity score between a stored
  field value and a query segment);
* scores and thresholds (`0.5`, `0.05`, `0.1`) are rationals;
* Python `int(...)` failures (`ValueError`) and the missing-query `400`
  response appear as `Except.error`.
-/

/-- A catalog record (`products/models.py`, class `Product`).  `category` and
`brand` stand for the related rows' `name` attribute; `calories` / `protein`
are the `nutrition_facts` JSON entries (`none` models SQL NULL / missing key);
`search_vector` is the stored full-text vector as a list of lexemes. -/
structure Product where
  id : Nat
  name_en : String
  name_ar : String
  description_en : String
  description_ar : String
  category : String
  brand : String
  calories : Option Int
  protein : Option Int
  search_vector : List String
deriving Repr, DecidableEq

/-- A `SearchQuery` disjunction of raw prefix terms (`word:*`); an empty token
list is `SearchQuery('')`, which matches nothing. -/
structure TsQuery where
  tokens : List String
deriving Repr, DecidableEq

/-- Similarity collaborator: `TrigramSimilarity(field, text)` as a function of
the stored field value and the query text. -/
abbrev SimFn := String → String → ℚ

/-- Rank collaborator: `SearchRank(F(search_vector), final_query)` as a
function of the stored vector and the OR-combined tsqueries. -/
abbrev RankFn := List String → List TsQuery → ℚ

/-- views.py line 78: a code point is Arabic when U+0600 ≤ c ≤ U+06FF. -/
def isArabicChar (c : Char) : Bool :=
  decide (0x600 ≤ c.toNat) && decide (c.toNat ≤ 0x6FF)

/-- views.py line 78: `english_part` keeps the non-Arabic code points. -/
def englishPart (q : String) : String :=
  String.mk (q.data.filter (fun c => ! isArabicChar c))

/-- views.py line 79: `arabic_part` keeps the Arabic code points. -/
def arabicPart (q : String) : String :=
  String.mk (q.data.filter (fun c => isArabicChar c))

/-- Python `str.split()` with no argument: split on whitespace runs,
discarding empty pieces (accumulator-based). -/
def splitWhiteAux : List Char → List Char → List String
  | [], acc => if acc.isEmpty then [] else [String.mk acc.reverse]
  | c :: cs, acc =>
    if c.isWhitespace then
      if acc.isEmpty then splitWhiteAux cs []
      else String.mk acc.reverse :: splitWhiteAux cs []
    else splitWhiteAux cs (c :: acc)

def splitWhite (s : String) : List String := splitWhiteAux s.data []

/-- Code point 39 is the apostrophe, 34 the double quote: the two characters
removed by `query.replace("'", "").replace('"', '')`. -/
def isQuoteChar (c : Char) : Bool := c.toNat == 39 || c.toNat == 34

/-- views.py line 124: remove every apostrophe and double quote, anywhere in
the string. -/
def removeQuotes (s : String) : String :=
  String.mk (s.data.filter (fun c => ! isQuoteChar c))

/-- Python `str.strip()`: drop leading and trailing whitespace. -/
def pyStrip (s : String) : String :=
  String.mk (((s.data.dropWhile Char.isWhitespace).reverse.dropWhile
    Char.isWhitespace).reverse)

/-- views.py `_prepare_tsquery` (lines 120–136): remove quotes, split on
whitespace, skip words shorter than 2 characters, OR the survivors as raw
prefix terms; both the no-words case and the all-skipped case collapse to the
empty (match-nothing) query. -/
def prepare_tsquery (query : String) : TsQuery :=
  let words := splitWhite (pyStrip (removeQuotes query))
  if words.isEmpty then ⟨[]⟩
  else ⟨words.foldl (fun acc w => if w.length < 2 then acc else acc ++ [w]) []⟩

/-- views.py `_full_text_search` lines 98–104: the per-language tsqueries
actually built, tagged with the postgres config they are built for
(`english` for the latin part, `simple` for the arabic part). -/
def built_queries (english_part arabic_part : String) : List (String × TsQuery) :=
  (if english_part ≠ "" then [("english", prepare_tsquery english_part)] else []) ++
  (if arabic_part ≠ "" then [("simple", prepare_tsquery arabic_part)] else [])

/-- A stored vector matches a tsquery disjunction when some raw term `t:*` is
a prefix of some lexeme. -/
def tsMatches (vec : List String) (tq : TsQuery) : Bool :=
  tq.tokens.any (fun t => vec.any (fun lex => t.data.isPrefixOf lex.data))

/-- Django `order_by('-key')`: a stable sort on the annotated key, largest
first (rows with equal keys keep their relative storage order). -/
def order_by_desc (key : Product → ℚ) (l : List Product) : List Product :=
  l.insertionSort (fun p q => key q ≤ key p)

/-- views.py lines 111–115: rows whose `search_vector` matches the combined
query, ordered by descending `SearchRank`.  An empty combined query (both
parts empty) matches no row, mirroring `Product.objects.none()`. -/
def ft_stage (db : List Product) (rk : RankFn)
    (english_part arabic_part : String) : List Product :=
  let qs := (built_queries english_part arabic_part).map Prod.snd
  order_by_desc (fun p => rk p.search_vector qs)
    (db.filter (fun p => qs.any (fun tq => tsMatches p.search_vector tq)))

/-- ASCII lowercasing, the behaviour of `icontains` on the latin range. -/
def lowerChar (c : Char) : Char :=
  if 65 ≤ c.toNat && c.toNat ≤ 90 then Char.ofNat (c.toNat + 32) else c

def lowerStr (s : String) : String := String.mk (s.data.map lowerChar)

/-- Containment: `sub` occurs contiguously inside `l`. -/
def containsSub (l sub : List Char) : Bool :=
  (List.range (l.length + 1)).any (fun i => sub.isPrefixOf (l.drop i))

/-- Django `field__icontains=needle`: case-insensitive substring test. -/
def icontains (hay needle : String) : Bool :=
  containsSub (lowerStr hay).data (lowerStr needle).data

/-- views.py `_fallback_search` lines 179–183: the OR of `Q` objects built
from the non-empty parts.  An empty Django `Q()` is the identity of `|` and
alone matches every row. -/
def fallbackPred (english_part arabic_part : String) (p : Product) : Bool :=
  if english_part = "" && arabic_part = "" then true
  else (english_part != "" && icontains p.name_en english_part)
    || (arabic_part != "" && icontains p.name_ar arabic_part)

/-- views.py line 184: `direct_matches`, in storage order (no `order_by`). -/
def fallback_direct (db : List Product) (english_part arabic_part : String) :
    List Product :=
  db.filter (fallbackPred english_part arabic_part)

/-- views.py lines 160–161: the `best_score` annotation,
`Greatest(name_sim, desc_sim * 0.5, ..., Value(0.0))` over the similarity
expressions of the non-empty parts. -/
def best_score (sim : SimFn) (english_part arabic_part : String)
    (p : Product) : ℚ :=
  let exprs :=
    (if english_part ≠ "" then
      [sim p.name_en english_part, sim p.description_en english_part * (1/2)]
     else []) ++
    (if arabic_part ≠ "" then
      [sim p.name_ar arabic_part, sim p.description_ar arabic_part * (1/2)]
     else [])
  exprs.foldl max 0

/-- views.py `_trigram_search` (lines 138–164). -/
def trigram_search (db : List Product) (sim : SimFn)
    (english_part arabic_part : String) : List Product :=
  let en_threshold : ℚ := if english_part.length ≤ 2 then 1/20 else 1/10
  let ar_threshold : ℚ := if arabic_part.length ≤ 2 then 1/20 else 1/10
  if english_part = "" && arabic_part = "" then []
  else
    let min_threshold : ℚ :=
      if english_part != "" && arabic_part != "" then min en_threshold ar_threshold
      else if english_part != "" then en_threshold else ar_threshold
    order_by_desc (best_score sim english_part arabic_part)
      (db.filter (fun p =>
        decide (min_threshold < best_score sim english_part arabic_part p)))

/-- views.py `_fallback_search` (lines 175–187): ILIKE on the name fields,
then trigram when that is empty. -/
def fallback_search (db : List Product) (sim : SimFn)
    (full_query english_part arabic_part : String) : List Product :=
  let direct_matches := fallback_direct db english_part arabic_part
  if direct_matches.isEmpty then trigram_search db sim english_part arabic_part
  else direct_matches

/-- views.py `_full_text_search` (lines 93–118): ranked vector match, falling
back to `_fallback_search` when it yields no row; both parts empty short
circuits to `Product.objects.none()`. -/
def full_text_search (db : List Product) (rk : RankFn) (sim : SimFn)
    (full_query english_part arabic_part : String) : List Product :=
  if (built_queries english_part arabic_part).isEmpty then []
  else
    let results := ft_stage db rk english_part arabic_part
    if results.isEmpty then
      fallback_search db sim full_query english_part arabic_part
    else results

/-- views.py `_hybrid_search` (lines 166–173). -/
def hybrid_search (db : List Product) (rk : RankFn) (sim : SimFn)
    (full_query english_part arabic_part : String) : List Product :=
  let full_text_results :=
    full_text_search db rk sim full_query english_part arabic_part
  if full_text_results.isEmpty then
    trigram_search db sim english_part arabic_part
  else full_text_results

/-- The two error outcomes of the endpoint: the 400 response for a missing
query, and the uncaught Python `ValueError` from `int(...)`. -/
inductive SearchError where
  | invalidQuery : SearchError
  | valueError : SearchError
deriving Repr, DecidableEq

/-- The request parameters the endpoint reads (`request.query_params`);
`none` is an absent parameter. -/
structure Params where
  q : Option String
  search_type : Option String
  category : Option String
  brand : Option String
  max_calories : Option String
  min_protein : Option String
deriving Repr, DecidableEq

def digitsVal (l : List Char) : Nat :=
  l.foldl (fun acc c => acc * 10 + (c.toNat - 48)) 0

/-- Python `int(s)` on a string: surrounding whitespace is allowed, then an
optional sign and a non-empty run of decimal digits; anything else raises
`ValueError` (`none` here).  (Digit-group underscores are not modelled.)
Code point 45 is the minus sign, 43 the plus sign. -/
def parse_int (s : String) : Option Int :=
  let t := (pyStrip s).data
  let signed : Bool × List Char :=
    match t with
    | c :: rest =>
      if c.toNat == 45 then (true, rest)
      else if c.toNat == 43 then (false, rest)
      else (false, t)
    | [] => (false, [])
  if signed.2.isEmpty then none
  else if signed.2.all Char.isDigit then
    some (if signed.1 then - Int.ofNat (digitsVal signed.2)
          else Int.ofNat (digitsVal signed.2))
  else none

/-- views.py lines 193–195: the category filter (skipped for an absent or
empty parameter, Python truthiness). -/
def apply_category (l : List Product) (v : Option String) : List Product :=
  match v with
  | some c => if c ≠ "" then l.filter (fun p => icontains p.category c) else l
  | none => l

/-- views.py lines 196–198: the brand filter. -/
def apply_brand (l : List Product) (v : Option String) : List Product :=
  match v with
  | some b => if b ≠ "" then l.filter (fun p => icontains p.brand b) else l
  | none => l

/-- A row passes `nutrition_facts__calories__lte=n` only when the JSON value
is present (SQL NULL comparisons are false). -/
def calories_le (n : Int) (p : Product) : Bool :=
  match p.calories with
  | some c => decide (c ≤ n)
  | none => false

def protein_ge (n : Int) (p : Product) : Bool :=
  match p.protein with
  | some c => decide (n ≤ c)
  | none => false

/-- views.py lines 199–201: `int(max_calories)` runs with no exception
handler, so an unparseable non-empty value raises. -/
def apply_max_calories (l : List Product) (v : Option String) :
    Except SearchError (List Product) :=
  match v with
  | some m =>
    if m ≠ "" then
      match parse_int m with
      | some n => Except.ok (l.filter (calories_le n))
      | none => Except.error SearchError.valueError
    else Except.ok l
  | none => Except.ok l

/-- views.py lines 202–204. -/
def apply_min_protein (l : List Product) (v : Option String) :
    Except SearchError (List Product) :=
  match v with
  | some m =>
    if m ≠ "" then
      match parse_int m with
      | some n => Except.ok (l.filter (protein_ge n))
      | none => Except.error SearchError.valueError
    else Except.ok l
  | none => Except.ok l

/-- views.py `_apply_filters` (lines 189–205): category, brand, max-calories,
min-protein, in that source order. -/
def apply_filters (l : List Product) (ps : Params) :
    Except SearchError (List Product) := do
  let l1 := apply_category l ps.category
  let l2 := apply_brand l1 ps.brand
  let l3 ← apply_max_calories l2 ps.max_calories
  let l4 ← apply_min_protein l3 ps.min_protein
  return l4

/-- views.py lines 81–86: strategy dispatch on `search_type`; every value
other than `trigram` and `hybrid` falls into the `else` branch. -/
def run_strategy (db : List Product) (rk : RankFn) (sim : SimFn)
    (search_type query : String) : List Product :=
  let english_part := englishPart query
  let arabic_part := arabicPart query
  if search_type = "trigram" then trigram_search db sim english_part arabic_part
  else if search_type = "hybrid" then
    hybrid_search db rk sim query english_part arabic_part
  else full_text_search db rk sim query english_part arabic_part

/-- views.py `search` (lines 62–91): reject a blank query, dispatch on the
strategy hint (default `full_text`), apply the filters, return the first 20
rows. -/
def search (db : List Product) (rk : RankFn) (sim : SimFn) (ps : Params) :
    Except SearchError (List Product) :=
  let query := pyStrip (ps.q.getD "")
  if query = "" then Except.error SearchError.invalidQuery
  else
    let search_type := ps.search_type.getD "full_text"
    let search_results := run_strategy db rk sim search_type query
    match apply_filters search_results ps with
    | Except.ok l => Except.ok (l.take 20)
    | Except.error e => Except.error e

/-! ## Comparison definitions

Definitions in this block follow the words of spec sentences (not the
source); each is compared against the corresponding source-derived
definition above. -/

/-- Modelled from the spec (§4.3, strategy `hybrid`): run `FullText`; if at
least one candidate, terminate with those results; else go directly to
`Trigram`, skipping `FallbackSubstring`. -/
def hybrid_claim (db : List Product) (rk : RankFn) (sim : SimFn)
    (english_part arabic_part : String) : List Product :=
  let full_text_results := ft_stage db rk english_part arabic_part
  if full_text_results.isEmpty then
    trigram_search db sim english_part arabic_part
  else full_text_results

/-- Strip quote characters from the two ends of one token (the claim's
reading of the normalization in `_prepare_tsquery`). -/
def strip_edge_quotes (s : String) : String :=
  String.mk (((s.data.dropWhile isQuoteChar).reverse.dropWhile
    isQuoteChar).reverse)

/-- Modelled from the claim (C7): split the segment on whitespace, strip
leading/trailing quote characters from each token, discard tokens shorter
than 2 characters. -/
def prepare_tsquery_claim (query : String) : TsQuery :=
  ⟨((splitWhite query).map strip_edge_quotes).filter (fun w => 2 ≤ w.length)⟩

/-- The amended reading of `_prepare_tsquery`: quote characters are removed
everywhere in the segment first, then the split / length-2 cut / disjunction
happen as the claim states. -/
def prepare_tsquery_amended (query : String) : TsQuery :=
  ⟨(splitWhite (pyStrip (removeQuotes query))).filter (fun w => 2 ≤ w.length)⟩

/-- The ordering the claim C3 asserts for results: strictly descending score,
ties broken by ascending identifier. -/
def c3_claim_order (sim : SimFn) (english_part arabic_part : String)
    (p r : Product) : Prop :=
  best_score sim english_part arabic_part r <
      best_score sim english_part arabic_part p ∨
    (best_score sim english_part arabic_part r =
        best_score sim english_part arabic_part p ∧ p.id < r.id)

/-- The per-filter predicates of `_apply_filters`, as row predicates (an
absent, empty, or — for the claim's comparison — unparseable parameter is the
constant-true predicate). -/
def category_pred (v : Option String) (p : Product) : Bool :=
  match v with
  | some c => if c ≠ "" then icontains p.category c else true
  | none => true

def brand_pred (v : Option String) (p : Product) : Bool :=
  match v with
  | some b => if b ≠ "" then icontains p.brand b else true
  | none => true

def max_calories_pred (v : Option String) (p : Product) : Bool :=
  match v with
  | some m =>
    if m ≠ "" then
      match parse_int m with
      | some n => calories_le n p
      | none => true
    else true
  | none => true

def min_protein_pred (v : Option String) (p : Product) : Bool :=
  match v with
  | some m =>
    if m ≠ "" then
      match parse_int m with
      | some n => protein_ge n p
      | none => true
    else true
  | none => true

/-- The conjunction of the four filter predicates. -/
def filters_pred (ps : Params) (p : Product) : Bool :=
  category_pred ps.category p && brand_pred ps.brand p &&
    max_calories_pred ps.max_calories p && min_protein_pred ps.min_protein p

/-- The four filters of `_apply_filters` applied in the reverse order, for
the order-independence comparison of claim C8. -/
def apply_filters_rev (l : List Product) (ps : Params) :
    Except SearchError (List Product) := do
  let l1 ← apply_min_protein l ps.min_protein
  let l2 ← apply_max_calories l1 ps.max_calories
  let l3 := apply_brand l2 ps.brand
  let l4 := apply_category l3 ps.category
  return l4

/-- A numeric filter parameter is absent, empty, or parseable. -/
def parses_or_absent (v : Option String) : Prop :=
  ∀ s, v = some s → s ≠ "" → (parse_int s).isSome = true

/-- The claim's per-segment trigram threshold, stated the way the spec words
it: `0.1` for segments longer than 2 characters, `0.05` for length ≤ 2. -/
def seg_threshold (s : String) : ℚ :=
  if 2 < s.length then 1/10 else 1/20

/-- The effective trigram admission threshold of `_trigram_search`
(views.py line 163). -/
def effective_threshold (english_part arabic_part : String) : ℚ :=
  let en_threshold : ℚ := if english_part.length ≤ 2 then 1/20 else 1/10
  let ar_threshold : ℚ := if arabic_part.length ≤ 2 then 1/20 else 1/10
  if english_part != "" && arabic_part != "" then min en_threshold ar_threshold
  else if english_part != "" then en_threshold else ar_threshold

/-! ## Concrete fixtures used by counterexamples and witnesses -/

/-- A rank collaborator that ranks every row 0. -/
def rk0 : RankFn := fun _ _ => 0

/-- A similarity collaborator that scores every pair 0. -/
def sim0 : SimFn := fun _ _ => 0

/-- A similarity collaborator that scores every pair 1/2. -/
def simHalf : SimFn := fun _ _ => 1/2

/-- A catalog row titled "protein", indexed under the single lexeme
`protein`. -/
def P0 : Product := ⟨1, "protein", "", "", "", "", "", none, none, ["protein"]⟩

/-- A row used by the filter counterexamples. -/
def pA : Product :=
  ⟨3, "milk", "", "", "", "dairy", "acme", some 150, some 5, ["milk"]⟩

/-- Rows with ids 1 and 2 for the tie-break counterexample. -/
def p3a : Product := ⟨1, "abca", "", "", "", "", "", none, none, []⟩

def p3b : Product := ⟨2, "abcb", "", "", "", "", "", none, none, []⟩

/-- A catalog stored with the id-2 row before the id-1 row. -/
def db3 : List Product := [p3b, p3a]

/-- A similarity collaborator scoring exactly the threshold for the field
value `"x"` and just above it for `"y"`. -/
def simEdge : SimFn := fun field _ =>
  if field = "x" then 1/20 else if field = "y" then 51/1000 else 0

def pX5 : Product := ⟨1, "x", "", "", "", "", "", none, none, []⟩

def pY5 : Product := ⟨2, "y", "", "", "", "", "", none, none, []⟩

def db5 : List Product := [pX5, pY5]

/-! ## Helper lemmas -/

lemma order_by_desc_perm (key : Product → ℚ) (l : List Product) :
    (order_by_desc key l).Perm l :=
  List.perm_insertionSort _ l

lemma mem_order_by_desc {key : Product → ℚ} {l : List Product} {p : Product} :
    p ∈ order_by_desc key l ↔ p ∈ l :=
  List.mem_insertionSort _

lemma sorted_order_by_desc (key : Product → ℚ) (l : List Product) :
    List.Sorted (fun p q => key q ≤ key p) (order_by_desc key l) := by
  haveI : IsTotal Product (fun p q => key q ≤ key p) :=
    ⟨fun a b => le_total (key b) (key a)⟩
  haveI : IsTrans Product (fun p q => key q ≤ key p) :=
    ⟨fun a b c h1 h2 => le_trans h2 h1⟩
  exact List.sorted_insertionSort _ l

lemma built_queries_eq_nil_iff {e a : String} :
    built_queries e a = [] ↔ e = "" ∧ a = "" := by
  unfold built_queries
  by_cases he : e = "" <;> by_cases ha : a = "" <;> simp [he, ha]

lemma trigram_search_eq (db : List Product) (sim : SimFn) (e a : String)
    (h : ¬(e = "" ∧ a = "")) :
    trigram_search db sim e a =
      order_by_desc (best_score sim e a)
        (db.filter (fun p =>
          decide (effective_threshold e a < best_score sim e a p))) := by
  by_cases he : e = "" <;> by_cases ha : a = ""
  · exact absurd ⟨he, ha⟩ h
  all_goals simp [trigram_search, effective_threshold, he, ha]

lemma mem_trigram_search {db : List Product} {sim : SimFn} {e a : String}
    {p : Product} (h : ¬(e = "" ∧ a = "")) :
    p ∈ trigram_search db sim e a ↔
      p ∈ db ∧ effective_threshold e a < best_score sim e a p := by
  rw [trigram_search_eq db sim e a h, mem_order_by_desc, List.mem_filter,
    decide_eq_true_iff]

lemma trigram_search_both_empty (db : List Product) (sim : SimFn) :
    trigram_search db sim "" "" = [] := by
  simp [trigram_search]

lemma filter_ext {p q : Product → Bool} (l : List Product)
    (h : ∀ x, p x = q x) : l.filter p = l.filter q :=
  List.filter_congr fun x _ => h x

lemma except_ok_bind {ε α β : Type} (a : α) (f : α → Except ε β) :
    (Except.ok a : Except ε α) >>= f = f a := rfl

lemma except_error_bind {ε α β : Type} (e : ε) (f : α → Except ε β) :
    (Except.error e : Except ε α) >>= f = Except.error e := rfl

lemma apply_category_eq (l : List Product) (v : Option String) :
    apply_category l v = l.filter (category_pred v) := by
  cases v with
  | none =>
    exact Eq.trans (List.filter_true l).symm
      (filter_ext l (p := fun _ => true) (q := category_pred none) fun x => rfl)
  | some c =>
    by_cases hc : c = ""
    · subst hc
      exact Eq.trans (List.filter_true l).symm
        (filter_ext l (p := fun _ => true) (q := category_pred (some ""))
          fun x => rfl)
    · refine Eq.trans (by simp [apply_category, hc])
        (filter_ext l (p := fun p => icontains p.category c)
          (q := category_pred (some c)) fun x => by simp [category_pred, hc])

lemma apply_brand_eq (l : List Product) (v : Option String) :
    apply_brand l v = l.filter (brand_pred v) := by
  cases v with
  | none =>
    exact Eq.trans (List.filter_true l).symm
      (filter_ext l (p := fun _ => true) (q := brand_pred none) fun x => rfl)
  | some b =>
    by_cases hb : b = ""
    · subst hb
      exact Eq.trans (List.filter_true l).symm
        (filter_ext l (p := fun _ => true) (q := brand_pred (some ""))
          fun x => rfl)
    · refine Eq.trans (by simp [apply_brand, hb])
        (filter_ext l (p := fun p => icontains p.brand b)
          (q := brand_pred (some b)) fun x => by simp [brand_pred, hb])

lemma apply_max_calories_eq (l : List Product) (v : Option String)
    (h : parses_or_absent v) :
    apply_max_calories l v = Except.ok (l.filter (max_calories_pred v)) := by
  cases v with
  | none =>
    exact congrArg Except.ok (Eq.trans (List.filter_true l).symm
      (filter_ext l (p := fun _ => true) (q := max_calories_pred none)
        fun x => rfl))
  | some m =>
    by_cases hm : m = ""
    · subst hm
      exact congrArg Except.ok (Eq.trans (List.filter_true l).symm
        (filter_ext l (p := fun _ => true) (q := max_calories_pred (some ""))
          fun x => rfl))
    · cases hp : parse_int m with
      | none =>
        have := h m rfl hm
        rw [hp] at this
        simp at this
      | some n =>
        refine Eq.trans (by simp [apply_max_calories, hm, hp])
          (congrArg Except.ok (filter_ext l (p := calories_le n)
            (q := max_calories_pred (some m))
            fun x => by simp [max_calories_pred, hm, hp]))

lemma apply_min_protein_eq (l : List Product) (v : Option String)
    (h : parses_or_absent v) :
    apply_min_protein l v = Except.ok (l.filter (min_protein_pred v)) := by
  cases v with
  | none =>
    exact congrArg Except.ok (Eq.trans (List.filter_true l).symm
      (filter_ext l (p := fun _ => true) (q := min_protein_pred none)
        fun x => rfl))
  | some m =>
    by_cases hm : m = ""
    · subst hm
      exact congrArg Except.ok (Eq.trans (List.filter_true l).symm
        (filter_ext l (p := fun _ => true) (q := min_protein_pred (some ""))
          fun x => rfl))
    · cases hp : parse_int m with
      | none =>
        have := h m rfl hm
        rw [hp] at this
        simp at this
      | some n =>
        refine Eq.trans (by simp [apply_min_protein, hm, hp])
          (congrArg Except.ok (filter_ext l (p := protein_ge n)
            (q := min_protein_pred (some m))
            fun x => by simp [min_protein_pred, hm, hp]))

lemma apply_filters_ok (l : List Product) (ps : Params)
    (h1 : parses_or_absent ps.max_calories)
    (h2 : parses_or_absent ps.min_protein) :
    apply_filters l ps = Except.ok (l.filter (filters_pred ps)) := by
  simp only [apply_filters, apply_category_eq, apply_brand_eq,
    apply_max_calories_eq _ _ h1, except_ok_bind, apply_min_protein_eq _ _ h2,
    List.filter_filter]
  refine congrArg Except.ok (filter_ext l fun x => ?_)
  simp [filters_pred, Bool.and_assoc, Bool.and_comm, Bool.and_left_comm]

lemma apply_filters_rev_ok (l : List Product) (ps : Params)
    (h1 : parses_or_absent ps.max_calories)
    (h2 : parses_or_absent ps.min_protein) :
    apply_filters_rev l ps = Except.ok (l.filter (filters_pred ps)) := by
  simp only [apply_filters_rev, apply_min_protein_eq _ _ h2, except_ok_bind,
    apply_max_calories_eq _ _ h1, apply_brand_eq, apply_category_eq,
    List.filter_filter]
  refine congrArg Except.ok (filter_ext l fun x => ?_)
  simp [filters_pred, Bool.and_assoc, Bool.and_comm, Bool.and_left_comm]

lemma apply_max_calories_sublist {l r : List Product} {v : Option String}
    (h : apply_max_calories l v = Except.ok r) : r.Sublist l := by
  cases v with
  | none =>
    simp [apply_max_calories] at h
    exact h ▸ List.Sublist.refl l
  | some m =>
    by_cases hm : m = ""
    · subst hm
      simp [apply_max_calories] at h
      exact h ▸ List.Sublist.refl l
    · cases hp : parse_int m with
      | none => simp [apply_max_calories, hm, hp] at h
      | some n =>
        simp [apply_max_calories, hm, hp] at h
        exact h ▸ List.filter_sublist l

lemma apply_min_protein_sublist {l r : List Product} {v : Option String}
    (h : apply_min_protein l v = Except.ok r) : r.Sublist l := by
  cases v with
  | none =>
    simp [apply_min_protein] at h
    exact h ▸ List.Sublist.refl l
  | some m =>
    by_cases hm : m = ""
    · subst hm
      simp [apply_min_protein] at h
      exact h ▸ List.Sublist.refl l
    · cases hp : parse_int m with
      | none => simp [apply_min_protein, hm, hp] at h
      | some n =>
        simp [apply_min_protein, hm, hp] at h
        exact h ▸ List.filter_sublist l

lemma apply_filters_sublist {l r : List Product} {ps : Params}
    (h : apply_filters l ps = Except.ok r) : r.Sublist l := by
  rw [apply_filters, apply_category_eq, apply_brand_eq] at h
  cases h3 : apply_max_calories ((l.filter (category_pred ps.category)).filter
      (brand_pred ps.brand)) ps.max_calories with
  | error e => rw [h3, except_error_bind] at h; exact absurd h (by simp)
  | ok l3 =>
    rw [h3, except_ok_bind] at h
    cases h4 : apply_min_protein l3 ps.min_protein with
    | error e => rw [h4, except_error_bind] at h; exact absurd h (by simp)
    | ok l4 =>
      rw [h4] at h
      have hr : l4 = r := by simpa using h
      subst hr
      exact ((apply_min_protein_sublist h4).trans
          (apply_max_calories_sublist h3)).trans
        ((List.filter_sublist _).trans (List.filter_sublist _))

lemma apply_filters_error_calories (l : List Product) (ps : Params)
    (s : String) (h1 : ps.max_calories = some s) (h2 : s ≠ "")
    (h3 : parse_int s = none) :
    apply_filters l ps = Except.error SearchError.valueError := by
  rw [apply_filters]
  have hmc : apply_max_calories
      (apply_brand (apply_category l ps.category) ps.brand) ps.max_calories =
      Except.error SearchError.valueError := by
    rw [h1]
    simp [apply_max_calories, h2, h3]
  rw [hmc, except_error_bind]

lemma apply_filters_error_protein (l : List Product) (ps : Params)
    (s : String) (h0 : parses_or_absent ps.max_calories)
    (h1 : ps.min_protein = some s) (h2 : s ≠ "")
    (h3 : parse_int s = none) :
    apply_filters l ps = Except.error SearchError.valueError := by
  rw [apply_filters]
  rw [apply_max_calories_eq _ _ h0, except_ok_bind]
  have hmp : apply_min_protein
      ((apply_brand (apply_category l ps.category) ps.brand).filter
        (max_calories_pred ps.max_calories)) ps.min_protein =
      Except.error SearchError.valueError := by
    rw [h1]
    simp [apply_min_protein, h2, h3]
  rw [hmp, except_error_bind]

lemma search_eq (db : List Product) (rk : RankFn) (sim : SimFn) (ps : Params)
    (q : String) (hq : ps.q = some q) (h : pyStrip q ≠ "") :
    search db rk sim ps =
      (apply_filters
        (run_strategy db rk sim (ps.search_type.getD "full_text") (pyStrip q))
        ps).map (fun l => l.take 20) := by
  rw [search, hq]
  simp only [Option.getD_some, if_neg h]
  cases apply_filters
      (run_strategy db rk sim (ps.search_type.getD "full_text") (pyStrip q))
      ps with
  | ok l => rfl
  | error e => rfl

lemma foldl_skip_eq_filter (ws : List String) (acc : List String) :
    ws.foldl (fun acc w => if w.length < 2 then acc else acc ++ [w]) acc =
      acc ++ ws.filter (fun w => 2 ≤ w.length) := by
  induction ws generalizing acc with
  | nil => simp
  | cons w ws ih =>
    by_cases hw : w.length < 2
    · have h2 : ¬(2 ≤ w.length) := by omega
      simp [List.foldl_cons, hw, ih, List.filter_cons, h2]
    · have h2 : 2 ≤ w.length := by omega
      simp [List.foldl_cons, hw, ih, List.filter_cons, h2]

lemma full_text_search_cases (db : List Product) (rk : RankFn) (sim : SimFn)
    (q e a : String) (h : ¬(e = "" ∧ a = "")) :
    full_text_search db rk sim q e a =
      if ft_stage db rk e a = [] then
        if fallback_direct db e a = [] then trigram_search db sim e a
        else fallback_direct db e a
      else ft_stage db rk e a := by
  have hb : (built_queries e a).isEmpty = false := by
    rw [List.isEmpty_eq_false_iff_exists_mem]
    rcases List.exists_mem_of_ne_nil (built_queries e a)
      (fun hn => h (built_queries_eq_nil_iff.mp hn)) with ⟨x, hx⟩
    exact ⟨x, hx⟩
  rw [full_text_search, hb]
  simp only [Bool.false_eq_true, if_false, fallback_search]
  by_cases hft : ft_stage db rk e a = []
  · simp only [hft, List.isEmpty_nil, if_pos rfl, if_true]
    by_cases hfb : fallback_direct db e a = []
    · simp [hfb]
    · simp [hfb, List.isEmpty_eq_false_iff_exists_mem.mpr
        (List.exists_mem_of_ne_nil _ hfb)]
  · have : (ft_stage db rk e a).isEmpty = false := by
      rw [List.isEmpty_eq_false_iff_exists_mem]
      exact List.exists_mem_of_ne_nil _ hft
    simp [this, hft]

lemma threshold_flip (s : String) :
    (if s.length ≤ 2 then (1/20 : ℚ) else 1/10) = seg_threshold s := by
  rw [seg_threshold]
  by_cases hs : s.length ≤ 2
  · rw [if_pos hs, if_neg (by omega)]
  · rw [if_neg hs, if_pos (by omega)]

/-! ## Claim theorems -/

/-- C5: in the Trigram stage the admission threshold for a segment is 0.1
when the segment is longer than 2 characters and 0.05 when its length is at
most 2; with both segments present the effective threshold is the minimum of
the two; and gating is strict — a record is in the result exactly when its
best score is strictly above the effective threshold, so a score equal to the
threshold is excluded. -/
theorem c5_trigram_threshold (db : List Product) (sim : SimFn) (e a : String)
    (p : Product) (h : ¬(e = "" ∧ a = "")) :
    (p ∈ trigram_search db sim e a ↔
      p ∈ db ∧ effective_threshold e a < best_score sim e a p) ∧
    (e ≠ "" → a ≠ "" →
      effective_threshold e a = min (seg_threshold e) (seg_threshold a)) ∧
    (e ≠ "" → a = "" → effective_threshold e a = seg_threshold e) ∧
    (e = "" → a ≠ "" → effective_threshold e a = seg_threshold a) ∧
    (∀ s : String, (2 < s.length → seg_threshold s = 1/10) ∧
      (s.length ≤ 2 → seg_threshold s = 1/20)) := by
  refine ⟨mem_trigram_search h, ?_, ?_, ?_, fun s => ⟨fun hs => ?_, fun hs => ?_⟩⟩
  · intro he ha
    have hc : (e != "" && a != "") = true := by simp [he, ha]
    simp only [effective_threshold, hc, if_true]
    rw [threshold_flip, threshold_flip]
  · intro he ha
    subst ha
    simp only [effective_threshold]
    rw [if_neg (by simp), if_pos (by simp [he]), threshold_flip]
  · intro he ha
    subst he
    simp only [effective_threshold]
    rw [if_neg (by simp), if_neg (by simp), threshold_flip]
  · simp [seg_threshold, hs]
  · have h2 : ¬ 2 < s.length := by omega
    simp [seg_threshold, h2]

/-- C5 witness: with segment `"ab"` (length 2) the threshold is 1/20; a
record scoring exactly 1/20 is excluded and one scoring 51/1000 = 0.051 is
included. -/
theorem c5_trigram_threshold_witness :
    pX5 ∉ trigram_search db5 simEdge "ab" "" ∧
    pY5 ∈ trigram_search db5 simEdge "ab" "" := by
  have hmemX := (c5_trigram_threshold db5 simEdge "ab" "" pX5 (by decide)).1
  have hmemY := (c5_trigram_threshold db5 simEdge "ab" "" pY5 (by decide)).1
  have hne : ("ab" : String) ≠ "" := by decide
  have hlen : ("ab" : String).length ≤ 2 := by decide
  have hx1 : ("" : String) ≠ "x" := by decide
  have hx2 : ("" : String) ≠ "y" := by decide
  have hyx : ("y" : String) ≠ "x" := by decide
  have heff : effective_threshold "ab" "" = 1/20 := by
    simp [effective_threshold, hne, hlen]
  have hbX : best_score simEdge "ab" "" pX5 = 1/20 := by
    norm_num [best_score, simEdge, pX5, hne, hx1, hx2]
  have hbY : best_score simEdge "ab" "" pY5 = 51/1000 := by
    norm_num [best_score, simEdge, pY5, hne, hx1, hx2, hyx]
  constructor
  · intro hm
    have h2 := (hmemX.mp hm).2
    rw [heff, hbX] at h2
    exact absurd h2 (by norm_num)
  · refine hmemY.mpr ⟨by simp [db5], ?_⟩
    rw [heff, hbY]
    norm_num

/-- C6: each record's trigram score for a segment is the maximum of its
title-field similarity and 0.5 times its description-field similarity; with
both segments present the final `best_score` is the greater of the two
per-segment maxima (never a sum); and, over a catalog whose identifiers are
unique, each identifier appears at most once in the trigram output. -/
theorem c6_trigram_scoring (db : List Product) (sim : SimFn) (e a : String)
    (p : Product) (hsim : ∀ x y, 0 ≤ sim x y) (he : e ≠ "") (ha : a ≠ "") :
    best_score sim e a p =
      max (max (sim p.name_en e) (sim p.description_en e * (1/2)))
          (max (sim p.name_ar a) (sim p.description_ar a * (1/2))) ∧
    ((db.map Product.id).Nodup →
      ((trigram_search db sim e a).map Product.id).Nodup) := by
  constructor
  · rw [best_score]
    simp only [if_pos he, if_pos ha, List.cons_append, List.nil_append,
      List.foldl_cons, List.foldl_nil]
    rw [max_eq_right (hsim p.name_en e), max_assoc]
  · intro hnd
    rw [trigram_search_eq db sim e a (fun hc => he hc.1)]
    have hp := (order_by_desc_perm (best_score sim e a)
      (db.filter (fun r =>
        decide (effective_threshold e a < best_score sim e a r)))).map Product.id
    exact hp.nodup_iff.mpr
      (List.Nodup.sublist ((List.filter_sublist db).map Product.id) hnd)

/-- C6 witness at a concrete catalog, similarity function and record. -/
theorem c6_trigram_scoring_witness :
    best_score simHalf "ab" "cd" P0 =
      max (max (simHalf P0.name_en "ab") (simHalf P0.description_en "ab" * (1/2)))
          (max (simHalf P0.name_ar "cd") (simHalf P0.description_ar "cd" * (1/2))) ∧
    (([P0].map Product.id).Nodup →
      ((trigram_search [P0] simHalf "ab" "cd").map Product.id).Nodup) :=
  c6_trigram_scoring [P0] simHalf "ab" "cd" P0
    (fun x y => by norm_num [simHalf]) (by decide) (by decide)

/-- C9: the script segmenter is pure and idempotent — re-segmenting the
concatenation of the latin and arabic parts reproduces exactly the same two
parts — and a query with no Arabic-range code point has an empty arabic part,
for which no `simple`-config (Arabic) tsquery is built. -/
theorem c9_segmenter_idempotent (q : String) :
    (englishPart (englishPart q ++ arabicPart q) = englishPart q ∧
     arabicPart (englishPart q ++ arabicPart q) = arabicPart q) ∧
    (q.data.all (fun c => ! isArabicChar c) = true →
      arabicPart q = "" ∧
      ∀ tq : TsQuery,
        ("simple", tq) ∉ built_queries (englishPart q) (arabicPart q)) := by
  have key1 : ∀ l : List Char,
      (l.filter (fun c => ! isArabicChar c)).filter (fun c => ! isArabicChar c) =
        l.filter (fun c => ! isArabicChar c) := by
    intro l
    rw [List.filter_filter]
    exact List.filter_congr fun x _ => Bool.and_self _
  have key2 : ∀ l : List Char,
      (l.filter (fun c => isArabicChar c)).filter (fun c => ! isArabicChar c) =
        [] := by
    intro l
    rw [List.filter_filter]
    refine Eq.trans (List.filter_congr (q := fun _ => false)
      fun x _ => ?_) (List.filter_false l)
    cases isArabicChar x <;> rfl
  have key3 : ∀ l : List Char,
      (l.filter (fun c => ! isArabicChar c)).filter (fun c => isArabicChar c) =
        [] := by
    intro l
    rw [List.filter_filter]
    refine Eq.trans (List.filter_congr (q := fun _ => false)
      fun x _ => ?_) (List.filter_false l)
    cases isArabicChar x <;> rfl
  have key4 : ∀ l : List Char,
      (l.filter (fun c => isArabicChar c)).filter (fun c => isArabicChar c) =
        l.filter (fun c => isArabicChar c) := by
    intro l
    rw [List.filter_filter]
    exact List.filter_congr fun x _ => Bool.and_self _
  constructor
  · constructor
    · rw [englishPart, englishPart, arabicPart, String.data_append]
      refine congrArg String.mk ?_
      show (q.data.filter (fun c => ! isArabicChar c) ++
          q.data.filter (fun c => isArabicChar c)).filter
            (fun c => ! isArabicChar c) = _
      rw [List.filter_append, key1, key2, List.append_nil]
    · rw [arabicPart, englishPart, arabicPart, String.data_append]
      refine congrArg String.mk ?_
      show (q.data.filter (fun c => ! isArabicChar c) ++
          q.data.filter (fun c => isArabicChar c)).filter
            (fun c => isArabicChar c) = _
      rw [List.filter_append, key3, key4, List.nil_append]
  · intro hall
    have ha : arabicPart q = "" := by
      rw [arabicPart]
      refine congrArg String.mk (List.filter_eq_nil_iff.mpr fun c hc => ?_)
      have := List.all_eq_true.mp hall c hc
      simp at this
      simp [this]
    refine ⟨ha, fun tq => ?_⟩
    rw [ha]
    by_cases he : englishPart q = "" <;> simp [built_queries, he]

/-- C9 witness: the no-Arabic conclusion discharged at the query `"milk"`. -/
theorem c9_segmenter_idempotent_witness :
    arabicPart "milk" = "" ∧
    ∀ tq : TsQuery,
      ("simple", tq) ∉ built_queries (englishPart "milk") (arabicPart "milk") :=
  (c9_segmenter_idempotent "milk").2 (by decide)

/-- C10: any strategy-hint string other than `trigram` and `hybrid`
(for example `fuzzy`) falls into the `else` branch of the dispatch —
the default full-text cascade — and the endpoint returns exactly the same
results as for the explicit `full_text` hint. -/
theorem c10_unrecognized_hint_defaults (db : List Product) (rk : RankFn)
    (sim : SimFn) (qv cv bv mcv mpv : Option String) (st : String)
    (h1 : st ≠ "trigram") (h2 : st ≠ "hybrid") :
    (∀ query : String, run_strategy db rk sim st query =
      run_strategy db rk sim "full_text" query) ∧
    search db rk sim ⟨qv, some st, cv, bv, mcv, mpv⟩ =
      search db rk sim ⟨qv, some "full_text", cv, bv, mcv, mpv⟩ := by
  have hrs : ∀ query : String, run_strategy db rk sim st query =
      run_strategy db rk sim "full_text" query := by
    intro query
    rw [run_strategy, run_strategy]
    rw [if_neg h1, if_neg h2, if_neg (by decide), if_neg (by decide)]
  refine ⟨hrs, ?_⟩
  rw [search, search]
  simp only [Option.getD_some]
  by_cases hq : pyStrip (qv.getD "") = ""
  · rw [if_pos hq, if_pos hq]
  · rw [if_neg hq, if_neg hq, hrs]
    have hap : apply_filters
        (run_strategy db rk sim "full_text" (pyStrip (qv.getD "")))
        ⟨qv, some st, cv, bv, mcv, mpv⟩ =
        apply_filters
        (run_strategy db rk sim "full_text" (pyStrip (qv.getD "")))
        ⟨qv, some "full_text", cv, bv, mcv, mpv⟩ := by
      rw [apply_filters, apply_filters]
    rw [hap]

/-- C10 witness at the unrecognized hint `"fuzzy"`. -/
theorem c10_unrecognized_hint_defaults_witness :
    (∀ query : String, run_strategy [P0] rk0 sim0 "fuzzy" query =
      run_strategy [P0] rk0 sim0 "full_text" query) ∧
    search [P0] rk0 sim0 ⟨some "rote", some "fuzzy", none, none, none, none⟩ =
      search [P0] rk0 sim0
        ⟨some "rote", some "full_text", none, none, none, none⟩ :=
  c10_unrecognized_hint_defaults [P0] rk0 sim0 (some "rote") none none none
    none "fuzzy" (by decide) (by decide)

/-- C4: under the default full-text strategy, when `FullText` yields at least
one candidate the result is exactly those candidates and the Trigram stage
(the only consumer of the similarity collaborator) is never reached; when
`FullText` yields none the FallbackSubstring stage runs, whose membership is
decided by case-insensitive substring containment of the parts in the title
fields alone (never the descriptions); only when that too is empty does the
Trigram stage run. -/
theorem c4_default_cascade (db : List Product) (rk : RankFn) (sim : SimFn)
    (q e a : String) (h : ¬(e = "" ∧ a = "")) :
    (ft_stage db rk e a ≠ [] →
      full_text_search db rk sim q e a = ft_stage db rk e a) ∧
    (ft_stage db rk e a = [] → fallback_direct db e a ≠ [] →
      full_text_search db rk sim q e a = fallback_direct db e a) ∧
    (ft_stage db rk e a = [] → fallback_direct db e a = [] →
      full_text_search db rk sim q e a = trigram_search db sim e a) ∧
    (∀ p, p ∈ fallback_direct db e a ↔
      p ∈ db ∧ ((e ≠ "" ∧ icontains p.name_en e = true) ∨
                (a ≠ "" ∧ icontains p.name_ar a = true))) := by
  refine ⟨?_, ?_, ?_, ?_⟩
  · intro hft
    rw [full_text_search_cases db rk sim q e a h, if_neg hft]
  · intro hft hfb
    rw [full_text_search_cases db rk sim q e a h, if_pos hft, if_neg hfb]
  · intro hft hfb
    rw [full_text_search_cases db rk sim q e a h, if_pos hft, if_pos hfb]
  · intro p
    rw [fallback_direct, List.mem_filter]
    have hcond : (decide (e = "") && decide (a = "")) = false := by
      rcases not_and_or.mp h with hc | hc <;> simp [hc]
    rw [fallbackPred, hcond]
    simp [bne_iff_ne]

/-- C4 witness: a catalog where `FullText` matches, so the cascade stops at
the first stage. -/
theorem c4_default_cascade_witness :
    full_text_search [P0] rk0 sim0 "prot" "prot" "" =
      ft_stage [P0] rk0 "prot" "" :=
  (c4_default_cascade [P0] rk0 sim0 "prot" "prot" "" (by decide)).1 (by decide)

/-- C1 counterexample: with the `hybrid` hint, a query whose FullText stage
is empty but whose title-substring fallback matches returns the fallback
results — `_hybrid_search` calls `_full_text_search`, which runs
`_fallback_search` internally — whereas the claim (FullText, else directly
Trigram, never FallbackSubstring) predicts the empty trigram result. -/
theorem c1_hybrid_counterexample :
    ft_stage [P0] rk0 "rote" "" = [] ∧
    trigram_search [P0] sim0 "rote" "" = [] ∧
    hybrid_search [P0] rk0 sim0 "rote" "rote" "" = [P0] ∧
    hybrid_search [P0] rk0 sim0 "rote" "rote" "" ≠
      hybrid_claim [P0] rk0 sim0 "rote" "" := by
  have h1 : ("rote" : String) ≠ "" := by decide
  have h2 : ¬(("rote" : String).length ≤ 2) := by decide
  have hft : ft_stage [P0] rk0 "rote" "" = [] := by decide
  have hfb : fallback_direct [P0] "rote" "" = [P0] := by decide
  have hb : best_score sim0 "rote" "" P0 = 0 := by
    norm_num [best_score, sim0, h1]
  have htri : trigram_search [P0] sim0 "rote" "" = [] := by
    norm_num [trigram_search, order_by_desc, List.insertionSort, hb, h1, h2]
  have hhyb : hybrid_search [P0] rk0 sim0 "rote" "rote" "" = [P0] := by
    simp [hybrid_search, full_text_search, fallback_search, hft, hfb, htri,
      h1, built_queries]
  have hclaim : hybrid_claim [P0] rk0 sim0 "rote" "" = [] := by
    simp [hybrid_claim, hft, htri]
  refine ⟨hft, htri, hhyb, ?_⟩
  rw [hhyb, hclaim]
  simp

/-- C1 amended: under the `hybrid` hint the planner terminates with the
FullText results when there is at least one, but otherwise it runs the same
fallback chain as the default strategy — FallbackSubstring and then
Trigram — because `_hybrid_search` reuses `_full_text_search`; its results
always coincide with the default full-text cascade. -/
theorem c1_hybrid_equals_default (db : List Product) (rk : RankFn)
    (sim : SimFn) (q e a : String) :
    hybrid_search db rk sim q e a = full_text_search db rk sim q e a := by
  simp only [hybrid_search]
  by_cases hemp : (full_text_search db rk sim q e a).isEmpty = true
  · rw [if_pos hemp]
    have hnil : full_text_search db rk sim q e a = [] :=
      List.isEmpty_iff.mp hemp
    by_cases hq : e = "" ∧ a = ""
    · rcases hq with ⟨he, ha⟩
      subst he
      subst ha
      rw [trigram_search_both_empty, hnil]
    · rw [full_text_search_cases db rk sim q e a hq] at hnil ⊢
      by_cases hft : ft_stage db rk e a = []
      · rw [if_pos hft] at hnil ⊢
        by_cases hfb : fallback_direct db e a = []
        · rw [if_pos hfb]
        · rw [if_neg hfb] at hnil
          exact absurd hnil hfb
      · rw [if_neg hft] at hnil
        exact absurd hnil hft
  · rw [if_neg hemp]

/-- C2 counterexample: with `max_calories = "abc"` filter application raises
(`int("abc")` has no exception handler) instead of treating the filter as
absent — the outcome differs from applying only the remaining well-formed
filters (here: none). -/
theorem c2_malformed_filter_counterexample :
    apply_filters [pA] ⟨none, none, none, none, some "abc", none⟩ =
      Except.error SearchError.valueError ∧
    apply_filters [pA] ⟨none, none, none, none, none, none⟩ =
      Except.ok [pA] ∧
    apply_filters [pA] ⟨none, none, none, none, some "abc", none⟩ ≠
      apply_filters [pA] ⟨none, none, none, none, none, none⟩ := by
  have h1 : apply_filters [pA] ⟨none, none, none, none, some "abc", none⟩ =
      Except.error SearchError.valueError := rfl
  have h2 : apply_filters [pA] ⟨none, none, none, none, none, none⟩ =
      Except.ok [pA] := rfl
  refine ⟨h1, h2, fun h => ?_⟩
  rw [h1, h2] at h
  exact Except.noConfusion h

/-- C2 amended: an absent or empty filter parameter is ignored, but a
non-empty numeric filter value that does not parse as an integer makes filter
application fail with `ValueError` — it is not treated as absent; when every
numeric value parses, the result equals the conjunctive application of the
present filters. -/
theorem c2_malformed_filter_amended :
    (∀ (l : List Product) (ps : Params) (s : String),
      ps.max_calories = some s → s ≠ "" → parse_int s = none →
      apply_filters l ps = Except.error SearchError.valueError) ∧
    (∀ (l : List Product) (ps : Params) (s : String),
      parses_or_absent ps.max_calories →
      ps.min_protein = some s → s ≠ "" → parse_int s = none →
      apply_filters l ps = Except.error SearchError.valueError) ∧
    (∀ (l : List Product) (ps : Params),
      parses_or_absent ps.max_calories → parses_or_absent ps.min_protein →
      apply_filters l ps = Except.ok (l.filter (filters_pred ps))) :=
  ⟨fun l ps s h1 h2 h3 => apply_filters_error_calories l ps s h1 h2 h3,
   fun l ps s h0 h1 h2 h3 => apply_filters_error_protein l ps s h0 h1 h2 h3,
   fun l ps h1 h2 => apply_filters_ok l ps h1 h2⟩

/-- C2 amended witness: the error branch at `max_calories = "xyz"` and the
conjunctive branch at a parseable `max_calories = "100"`. -/
theorem c2_malformed_filter_amended_witness :
    apply_filters [pA] ⟨none, none, none, none, some "xyz", none⟩ =
      Except.error SearchError.valueError ∧
    apply_filters [pA] ⟨none, none, some "dai", none, some "100", none⟩ =
      Except.ok ([pA].filter
        (filters_pred ⟨none, none, some "dai", none, some "100", none⟩)) := by
  constructor
  · exact c2_malformed_filter_amended.1 [pA]
      ⟨none, none, none, none, some "xyz", none⟩ "xyz" rfl (by decide)
      (by decide)
  · refine c2_malformed_filter_amended.2.2 [pA]
      ⟨none, none, some "dai", none, some "100", none⟩ ?_ ?_
    · intro s hs hne
      cases hs
      decide
    · intro s hs hne
      exact Option.noConfusion hs

/-- C7 counterexample: for the segment `a"b` the source removes the interior
quote before splitting and builds the prefix term `ab`, while the claim's
splitting followed by per-token edge-quote stripping keeps the token `a"b`;
the resulting disjunctions differ. -/
theorem c7_tsquery_counterexample :
    prepare_tsquery "a\"b" = ⟨["ab"]⟩ ∧
    prepare_tsquery_claim "a\"b" = ⟨["a\"b"]⟩ ∧
    prepare_tsquery "a\"b" ≠ prepare_tsquery_claim "a\"b" := by
  refine ⟨?_, ?_, ?_⟩ <;> decide

/-- C7 amended: token query building removes every quote character anywhere
in the segment (not only at token edges), then splits on whitespace, discards
every token shorter than 2 characters, returns the neutral match-nothing
query when zero tokens remain, and otherwise produces the disjunction with
one prefix term per retained token, in order. -/
theorem c7_tsquery_amended (q : String) :
    prepare_tsquery q = prepare_tsquery_amended q := by
  simp only [prepare_tsquery, prepare_tsquery_amended]
  by_cases hw : (splitWhite (pyStrip (removeQuotes q))).isEmpty = true
  · rw [if_pos hw]
    rw [List.isEmpty_iff.mp hw]
    rfl
  · rw [if_neg hw, foldl_skip_eq_filter, List.nil_append]

/-- C8: the structured filters are independent conjunctive predicates: with
well-formed numeric parameters, `_apply_filters` equals one filtering pass
with the conjunction of the four per-filter predicates, applying them in the
reverse order yields the identical surviving set, survivors keep their
relative input order (the result is a sublist of the input), and the top-20
truncation is applied strictly after `_apply_filters`. -/
theorem c8_filters_conjunctive :
    (∀ (l : List Product) (ps : Params),
      parses_or_absent ps.max_calories → parses_or_absent ps.min_protein →
      apply_filters l ps = Except.ok (l.filter (filters_pred ps)) ∧
      apply_filters_rev l ps = apply_filters l ps ∧
      (l.filter (filters_pred ps)).Sublist l) ∧
    (∀ (db : List Product) (rk : RankFn) (sim : SimFn) (ps : Params)
      (q : String), ps.q = some q → pyStrip q ≠ "" →
      search db rk sim ps =
        (apply_filters
          (run_strategy db rk sim (ps.search_type.getD "full_text")
            (pyStrip q)) ps).map (fun l => l.take 20)) := by
  constructor
  · intro l ps h1 h2
    refine ⟨apply_filters_ok l ps h1 h2, ?_, List.filter_sublist l⟩
    rw [apply_filters_rev_ok l ps h1 h2, apply_filters_ok l ps h1 h2]
  · intro db rk sim ps q hq h
    exact search_eq db rk sim ps q hq h

/-- C8 witness at concrete parameters (category `"dai"`,
`max_calories = "200"`) and a concrete query. -/
theorem c8_filters_conjunctive_witness :
    (apply_filters [pA] ⟨none, none, some "dai", none, some "200", none⟩ =
      Except.ok ([pA].filter
        (filters_pred ⟨none, none, some "dai", none, some "200", none⟩)) ∧
     apply_filters_rev [pA] ⟨none, none, some "dai", none, some "200", none⟩ =
      apply_filters [pA] ⟨none, none, some "dai", none, some "200", none⟩ ∧
     ([pA].filter
        (filters_pred ⟨none, none, some "dai", none, some "200", none⟩)).Sublist
       [pA]) ∧
    search [P0] rk0 sim0 ⟨some "rote", none, none, none, none, none⟩ =
      (apply_filters
        (run_strategy [P0] rk0 sim0 "full_text" (pyStrip "rote"))
        ⟨some "rote", none, none, none, none, none⟩).map
        (fun l => l.take 20) := by
  constructor
  · refine c8_filters_conjunctive.1 [pA]
      ⟨none, none, some "dai", none, some "200", none⟩ ?_ ?_
    · intro s hs hne
      cases hs
      decide
    · intro s hs hne
      exact Option.noConfusion hs
  · exact c8_filters_conjunctive.2 [P0] rk0 sim0
      ⟨some "rote", none, none, none, none, none⟩ "rote" rfl (by decide)

lemma sorted_trigram_search (db : List Product) (sim : SimFn) (e a : String) :
    List.Sorted (fun p r => best_score sim e a r ≤ best_score sim e a p)
      (trigram_search db sim e a) := by
  by_cases h : e = "" ∧ a = ""
  · rcases h with ⟨he, ha⟩
    subst he
    subst ha
    rw [trigram_search_both_empty]
    exact List.sorted_nil
  · rw [trigram_search_eq db sim e a h]
    exact sorted_order_by_desc _ _

lemma trigram_search_nodup (db : List Product) (sim : SimFn) (e a : String)
    (hnd : (db.map Product.id).Nodup) :
    ((trigram_search db sim e a).map Product.id).Nodup := by
  by_cases h : e = "" ∧ a = ""
  · rcases h with ⟨he, ha⟩
    subst he
    subst ha
    rw [trigram_search_both_empty]
    exact List.nodup_nil
  · rw [trigram_search_eq db sim e a h]
    have hp := (order_by_desc_perm (best_score sim e a)
      (db.filter (fun r =>
        decide (effective_threshold e a < best_score sim e a r)))).map
        Product.id
    exact hp.nodup_iff.mpr
      (List.Nodup.sublist ((List.filter_sublist db).map Product.id) hnd)

/-- C3 amended: for the trigram strategy the endpoint returns the first 20
survivors of the filters: the result has at most 20 entries (exactly
`min 20 (number of survivors)`), is unique by identifier whenever the catalog
is, is sorted by non-increasing score — rows with equal scores keep their
relative storage order instead of being reordered by ascending identifier —
and every survivor that is left out scores no more than any returned row, so
with 35 surviving candidates of distinct scores exactly the 20
highest-scoring are returned. -/
theorem c3_amended_truncation (db : List Product) (rk : RankFn) (sim : SimFn)
    (qv : String) (cv bv mcv mpv : Option String) (res : List Product)
    (hq : pyStrip qv ≠ "")
    (hnd : (db.map Product.id).Nodup)
    (hres : search db rk sim ⟨some qv, some "trigram", cv, bv, mcv, mpv⟩ =
      Except.ok res) :
    res.length ≤ 20 ∧
    (res.map Product.id).Nodup ∧
    List.Sorted (fun p r =>
      best_score sim (englishPart (pyStrip qv)) (arabicPart (pyStrip qv)) r ≤
      best_score sim (englishPart (pyStrip qv)) (arabicPart (pyStrip qv)) p)
      res ∧
    ∃ survivors,
      apply_filters
        (trigram_search db sim (englishPart (pyStrip qv))
          (arabicPart (pyStrip qv)))
        ⟨some qv, some "trigram", cv, bv, mcv, mpv⟩ = Except.ok survivors ∧
      res = survivors.take 20 ∧
      res.length = min 20 survivors.length ∧
      ∀ x ∈ res, ∀ y ∈ survivors, y ∉ res →
        best_score sim (englishPart (pyStrip qv)) (arabicPart (pyStrip qv)) y ≤
        best_score sim (englishPart (pyStrip qv)) (arabicPart (pyStrip qv)) x := by
  have hse := search_eq db rk sim ⟨some qv, some "trigram", cv, bv, mcv, mpv⟩
    qv rfl hq
  rw [hse] at hres
  have hrunt : run_strategy db rk sim
      ((some "trigram").getD "full_text") (pyStrip qv) =
      trigram_search db sim (englishPart (pyStrip qv))
        (arabicPart (pyStrip qv)) := by
    rw [run_strategy, Option.getD_some, if_pos rfl]
  rw [hrunt] at hres
  set e := englishPart (pyStrip qv) with he
  set a := arabicPart (pyStrip qv) with ha
  set key := best_score sim e a with hkey
  cases hap : apply_filters (trigram_search db sim e a)
      ⟨some qv, some "trigram", cv, bv, mcv, mpv⟩ with
  | error er =>
    rw [hap] at hres
    exact absurd hres (by simp [Except.map])
  | ok survivors =>
    rw [hap] at hres
    simp only [Except.map, Except.ok.injEq] at hres
    have hres20 : res = survivors.take 20 := hres.symm
    have hsub_surv : survivors.Sublist (trigram_search db sim e a) :=
      apply_filters_sublist hap
    have hsub_res : res.Sublist survivors := by
      rw [hres20]
      exact List.take_sublist 20 survivors
    have hsorted_surv :
        List.Sorted (fun p r => key r ≤ key p) survivors :=
      List.Pairwise.sublist hsub_surv (sorted_trigram_search db sim e a)
    refine ⟨?_, ?_, ?_, survivors, rfl, hres20, ?_, ?_⟩
    · rw [hres20, List.length_take]
      exact min_le_left _ _
    · exact List.Nodup.sublist (hsub_res.map Product.id)
        (List.Nodup.sublist (hsub_surv.map Product.id)
          (trigram_search_nodup db sim e a hnd))
    · exact List.Pairwise.sublist hsub_res hsorted_surv
    · rw [hres20, List.length_take]
    · intro x hx y hy hyn
      have hsplit : survivors.take 20 ++ survivors.drop 20 = survivors :=
        List.take_append_drop 20 survivors
      have hydrop : y ∈ survivors.drop 20 := by
        rw [← hsplit] at hy
        rcases List.mem_append.mp hy with hcase | hcase
        · exact absurd (hres20 ▸ hcase) hyn
        · exact hcase
      have hpw := hsorted_surv
      rw [← hsplit] at hpw
      exact (List.pairwise_append.mp hpw).2.2 x (hres20 ▸ hx) y hydrop

lemma best_score_simHalf_abc (p : Product) :
    best_score simHalf "abc" "" p = 1/2 := by
  norm_num [best_score, simHalf, show ("abc" : String) ≠ "" from by decide]

lemma trigram_db3_eval :
    trigram_search db3 simHalf "abc" "" = [p3b, p3a] := by
  have hne : ("abc" : String) ≠ "" := by decide
  rw [trigram_search_eq db3 simHalf "abc" "" (fun hc => hne hc.1)]
  have heff : effective_threshold "abc" "" = 1/10 := by
    simp [effective_threshold, hne,
      show ¬(("abc" : String).length ≤ 2) from by decide]
  have hpred : ∀ p : Product,
      decide (effective_threshold "abc" "" <
        best_score simHalf "abc" "" p) = true := by
    intro p
    rw [heff, best_score_simHalf_abc]
    norm_num
  rw [List.filter_congr (q := fun _ => true) fun x _ => hpred x,
    List.filter_true]
  simp [order_by_desc, List.insertionSort, List.orderedInsert,
    best_score_simHalf_abc]

lemma search_db3_eval :
    search db3 rk0 simHalf ⟨some "abc", some "trigram", none, none, none,
      none⟩ = Except.ok [p3b, p3a] := by
  rw [search_eq db3 rk0 simHalf _ "abc" rfl (by decide)]
  have hrunt : run_strategy db3 rk0 simHalf
      ((some "trigram").getD "full_text") (pyStrip "abc") =
      trigram_search db3 simHalf (englishPart (pyStrip "abc"))
        (arabicPart (pyStrip "abc")) := by
    rw [run_strategy, Option.getD_some, if_pos rfl]
  rw [hrunt]
  have hEp : englishPart (pyStrip "abc") = "abc" := by decide
  have hAp : arabicPart (pyStrip "abc") = "" := by decide
  rw [hEp, hAp, trigram_db3_eval]
  rfl

/-- C3 counterexample: with two surviving candidates of equal score, the
returned order is the storage order `[id 2, id 1]` — the source orders only
by `-best_score`, with no identifier tie-break — while the claim's
deterministic order (descending score, ties by ascending identifier) demands
`[id 1, id 2]`; the output violates the claimed ordering relation. -/
theorem c3_truncation_counterexample :
    search db3 rk0 simHalf ⟨some "abc", some "trigram", none, none, none,
      none⟩ = Except.ok [p3b, p3a] ∧
    best_score simHalf "abc" "" p3a = best_score simHalf "abc" "" p3b ∧
    p3a.id < p3b.id ∧
    ¬ List.Pairwise (c3_claim_order simHalf "abc" "") [p3b, p3a] := by
  refine ⟨search_db3_eval, ?_, by decide, ?_⟩
  · rw [best_score_simHalf_abc, best_score_simHalf_abc]
  · intro hpw
    have hrel := (List.pairwise_cons.mp hpw).1 p3a (by simp)
    rcases hrel with hlt | ⟨heq, hid⟩
    · rw [best_score_simHalf_abc, best_score_simHalf_abc] at hlt
      exact absurd hlt (by norm_num)
    · exact absurd hid (by decide)

/-- C3 amended witness: the amended theorem discharged at the concrete
catalog `db3`, query `"abc"`, trigram hint and result `[p3b, p3a]`. -/
theorem c3_amended_truncation_witness :
    ([p3b, p3a] : List Product).length ≤ 20 ∧
    (([p3b, p3a] : List Product).map Product.id).Nodup ∧
    List.Sorted (fun p r =>
      best_score simHalf (englishPart (pyStrip "abc"))
        (arabicPart (pyStrip "abc")) r ≤
      best_score simHalf (englishPart (pyStrip "abc"))
        (arabicPart (pyStrip "abc")) p) [p3b, p3a] := by
  have h := c3_amended_truncation db3 rk0 simHalf "abc" none none none none
    [p3b, p3a] (by decide) (by decide) search_db3_eval
  exact ⟨h.1, h.2.1, h.2.2.1⟩
